import Mathlib

/-!
Verification of the `biomedical_ner.py` conversion script (repository
MedicalVision).  The script loads a pretrained token-classification model,
wraps it so the forward pass returns only the logits tensor, traces it,
converts the trace to a Core ML package, serializes vocabulary / label /
special-token side tables, and runs a smoke test that reloads the package,
predicts on one sample sentence and decodes the logits into
(token, label, confidence) triples.

This file shallowly embeds the parts of the script that the claims are
about: the `__main__` block, the control flow of the smoke-test stage, the
serialization of the label tables in `save_tokenizer_info`, the declared
shape of the converted output, the `softmax` helper, and the decode loop
(argmax, label lookup, confidence, entity collection).  Real-valued
numerical code is modelled over `ℝ`.
-/

namespace BiomedicalNER

/-! ## Data model: the loaded model's configuration

`model.config` carries `num_labels`, `id2label` and `label2id`.  Python
dicts are embedded as association lists looked up by first matching key. -/

structure NERConfig where
  num_labels : Nat
  id2label : List (Nat × String)
  label2id : List (String × Nat)

/-- `d.get(k)` on a dict with integer keys: first pair whose key matches. -/
def lookupLabel (m : List (Nat × String)) (k : Nat) : Option String :=
  (m.find? (fun p => p.1 == k)).map (·.2)

/-- `d[k]` lookup on a dict with string keys: first pair whose key matches. -/
def lookupId (m : List (String × Nat)) (k : String) : Option Nat :=
  (m.find? (fun p => p.1 == k)).map (·.2)

/-! ## `save_tokenizer_info`, label serialization (lines 117-124)

The script builds `label_info = {"id2label": config.id2label,
"label2id": config.label2id, "num_labels": config.num_labels}` and dumps
it verbatim to `labels.json`. -/

structure LabelInfo where
  id2label : List (Nat × String)
  label2id : List (String × Nat)
  num_labels : Nat

/-- The `label_info` object written verbatim to `labels.json`. -/
def save_label_info (config : NERConfig) : LabelInfo :=
  { id2label := config.id2label
    label2id := config.label2id
    num_labels := config.num_labels }

/-- Modelled from the spec: the loaded model's label table is "a
bidirectional mapping between small integer class ids and human-readable
entity-type strings" (spec §3, Label Table).  The model configuration is
fetched from an external registry and is not part of `src/`; we model the
bidirectionality as: `label2id` holds exactly the reversed pairs of
`id2label`, and the label strings are pairwise distinct. -/
def BidirectionalConfig (config : NERConfig) : Prop :=
  config.label2id = config.id2label.map (fun p => (p.2, p.1)) ∧
  (config.id2label.map Prod.snd).Nodup

/-! ## The `__main__` block (lines 237-251)

The block runs `convert_biomedical_ner_to_coreml()` and then calls
`test_conversion()` inside one `try`.  The top-level names actually bound
by the script are the three `def`s; a call to an unbound name raises
`NameError`, caught by the `except` which prints the error message and the
installation hint. -/

def script_top_level_names : List String :=
  ["convert_biomedical_ner_to_coreml", "save_tokenizer_info", "softmax"]

/-- Calling a function by name at top level: a `NameError` if the script
never bound that name. -/
def callByName (name : String) : Except String Unit :=
  if script_top_level_names.contains name then Except.ok ()
  else Except.error ("name '" ++ name ++ "' is not defined")

def install_hint : String :=
  "Make sure you have installed: torch, transformers, coremltools"

/-- The printed log of the `__main__` block, as a function of the outcome
of `convert_biomedical_ner_to_coreml()` (`Except.ok` when conversion
succeeds, `Except.error e` when it raises `e`). -/
def mainBlock (conversion : Except String Unit) : List String :=
  ["Starting biomedical NER model conversion..."] ++
  match conversion with
  | Except.error e => ["Error during conversion: " ++ e, install_hint]
  | Except.ok _ =>
    ["Conversion completed successfully!"] ++
    match callByName "test_conversion" with
    | Except.error e => ["Error during conversion: " ++ e, install_hint]
    | Except.ok _ => []

/-! ## Control flow of the smoke-test stage (lines 149-230)

The stage reloads the saved package (line 155, *outside* the `try`),
reloads the tokenizer and `labels.json`, tokenizes the sample sentence,
and only then enters the `try` block (line 183) that covers prediction and
the whole decode loop; the `except` (line 225) prints "Prediction failed"
with three generic possible causes and falls through. -/

inductive StageOutcome where
  | normal (log : List String)
  | raised (e : String)
  deriving DecidableEq

/-- The smoke-test stage as a function of its two fallible steps: the
reload of `BiomedicalNER.mlpackage` (not guarded by any `try`), and the
guarded predict-and-decode body (whose log is returned on success). -/
def smokeTestStage (reload : Except String Unit)
    (predictAndDecode : Except String (List String)) : StageOutcome :=
  match reload with
  | Except.error e => StageOutcome.raised e
  | Except.ok _ =>
    match predictAndDecode with
    | Except.ok log => StageOutcome.normal log
    | Except.error e =>
      StageOutcome.normal
        ["Prediction failed: " ++ e,
         "This might indicate:",
         "- Input shape mismatch",
         "- Model conversion issues",
         "- Core ML compatibility problems"]

/-! ## Converted output shape (lines 31, 43-46, 64-84)

The converter declares one output named "logits"; its shape is the shape
of the traced wrapper output at the trace inputs, which are two tensors of
shape `(1, max_sequence_length)`. -/

def max_sequence_length : Nat := 512

/-- Modelled from the spec: the underlying token-classification model's
structured output — its logits tensor has shape
`(batch, sequence_length, num_classes)` where `num_classes` is the
configured class count (spec §4.2 contract); the model's internal
computation is an external black box not present in `src/`. -/
def model_logits_shape (config : NERConfig) (batch seq : Nat) :
    Nat × Nat × Nat :=
  (batch, seq, config.num_labels)

/-- `NERModelWrapper.forward` returns only `outputs.logits`, so the shape
of the wrapper's single output is the shape of the logits tensor. -/
def NERModelWrapper_forward_shape (config : NERConfig) (batch seq : Nat) :
    Nat × Nat × Nat :=
  model_logits_shape config batch seq

/-- The shape of the converted package's declared output tensor "logits":
the traced wrapper output at the trace input shape `(1, 512)`. -/
def converted_output_shape (config : NERConfig) : Nat × Nat × Nat :=
  NERModelWrapper_forward_shape config 1 max_sequence_length

end BiomedicalNER

namespace BiomedicalNER

/-! ## Helper lemmas -/

/-- Looking up a label string in the reversed pair list recovers its id,
provided the label strings are pairwise distinct. -/
theorem lookupId_reversed (l : List (Nat × String))
    (hnd : (l.map Prod.snd).Nodup) :
    ∀ p ∈ l, lookupId (l.map (fun q => (q.2, q.1))) p.2 = some p.1 := by
  induction l with
  | nil => intro p hp; cases hp
  | cons hd tl ih =>
    intro p hp
    simp only [List.map_cons, List.nodup_cons] at hnd
    rcases List.mem_cons.mp hp with h | h
    · subst h
      simp [lookupId, List.find?]
    · have hne : (hd.2 == p.2) = false := by
        refine beq_eq_false_iff_ne.mpr ?_
        intro hc
        refine hnd.1 ?_
        rw [hc]
        exact List.mem_map_of_mem Prod.snd h
      have := ih hnd.2 p h
      simpa [lookupId, List.find?_cons, hne] using this

end BiomedicalNER

/-! ## Claims -/

open BiomedicalNER

/-- C1 (claim as stated, counterexample): it is false that every exception
raised during reload of the saved package is caught locally with execution
falling through; at the concrete input where reloading
`BiomedicalNER.mlpackage` raises a file-not-found error, the smoke-test
stage does not reach normal termination: the error propagates. -/
theorem C1_reload_error_propagates_counterexample :
    ¬ ∃ log,
      smokeTestStage
        (Except.error "No such file or directory: BiomedicalNER.mlpackage")
        (Except.ok []) = StageOutcome.normal log := by
  rintro ⟨log, h⟩
  simp [smokeTestStage] at h

/-- C1 (amended): exceptions raised during prediction or decoding are
caught locally and execution falls through to normal termination, but an
exception raised while reloading the saved package is not guarded by the
`try` and propagates out of the smoke-test stage (to the top-level
conversion handler). -/
theorem C1_smoke_stage_error_containment (pd : Except String (List String))
    (e : String) :
    (∃ log, smokeTestStage (Except.ok ()) pd = StageOutcome.normal log) ∧
    smokeTestStage (Except.error e) pd = StageOutcome.raised e := by
  refine ⟨?_, rfl⟩
  cases pd with
  | ok log => exact ⟨log, rfl⟩
  | error err => exact ⟨_, rfl⟩

/-- C2: whenever conversion returns successfully, the `__main__` block's
call to `test_conversion()` hits a name that the script never defines, so
the run still ends with the "Error during conversion" message and the
installation hint. -/
theorem C2_test_conversion_name_error (conversion : Except String Unit)
    (h : conversion = Except.ok ()) :
    "test_conversion" ∉ script_top_level_names ∧
    mainBlock conversion =
      ["Starting biomedical NER model conversion...",
       "Conversion completed successfully!",
       "Error during conversion: name 'test_conversion' is not defined",
       install_hint] := by
  subst h
  refine ⟨by decide, ?_⟩
  rfl

/-- C2 witness: the theorem applied at the successful conversion outcome. -/
theorem C2_test_conversion_name_error_witness :
    "test_conversion" ∉ script_top_level_names ∧
    mainBlock (Except.ok ()) =
      ["Starting biomedical NER model conversion...",
       "Conversion completed successfully!",
       "Error during conversion: name 'test_conversion' is not defined",
       install_hint] :=
  C2_test_conversion_name_error (Except.ok ()) rfl

/-- C3: for every loaded configuration, the converted package's declared
output tensor has shape `(1, 512, num_labels)` where `num_labels` is the
configuration's class count — the class dimension tracks the
configuration, it is not hardcoded. -/
theorem C3_output_shape (config : NERConfig) :
    converted_output_shape config = (1, 512, config.num_labels) := rfl

/-- C4: the two label mappings serialized to `labels.json` are written
verbatim from the config; under the spec's bidirectional-label-table model
of the config, applying `id2label` and then `label2id` on the serialized
tables returns the original id. -/
theorem C4_label_roundtrip (config : NERConfig)
    (h : BidirectionalConfig config) :
    ∀ p ∈ (save_label_info config).id2label,
      lookupId (save_label_info config).label2id p.2 = some p.1 := by
  intro p hp
  have h2 : (save_label_info config).label2id
      = (save_label_info config).id2label.map (fun q => (q.2, q.1)) := h.1
  rw [h2]
  exact lookupId_reversed _ h.2 p hp

/-- C4 witness: the round trip evaluated on a concrete two-label config. -/
theorem C4_label_roundtrip_witness :
    lookupId (save_label_info
        { num_labels := 2,
          id2label := [(0, "O"), (1, "B-Drug")],
          label2id := [("O", 0), ("B-Drug", 1)] }).label2id "B-Drug"
      = some 1 :=
  C4_label_roundtrip
    { num_labels := 2,
      id2label := [(0, "O"), (1, "B-Drug")],
      label2id := [("O", 0), ("B-Drug", 1)] }
    ⟨by decide, by decide⟩ (1, "B-Drug") (by decide)

namespace BiomedicalNER

/-! ## Numerical part: `softmax`, `np.max`, `np.argmax` (lines 193-235) -/

/-- `np.max` over a score vector: fold of `max` started from the first
element (the script never applies it to an empty vector; the default 0 is
only for totality). -/
noncomputable def npMax (x : List ℝ) : ℝ :=
  x.foldl max (x.headD 0)

/-- `softmax` (lines 232-235): `exp_x = np.exp(x - np.max(x))`, then
`exp_x / np.sum(exp_x)`. -/
noncomputable def softmax (x : List ℝ) : List ℝ :=
  let exp_x := x.map (fun xi => Real.exp (xi - npMax x))
  exp_x.map (fun e => e / exp_x.sum)

/-- The textbook softmax `exp(x_i) / Σ_j exp(x_j)`, written from the
claim's words for the refinement comparison with the implemented
`softmax`. -/
noncomputable def softmax_textbook (x : List ℝ) : List ℝ :=
  x.map (fun xi => Real.exp xi / (x.map Real.exp).sum)

/-- `np.argmax` over a score vector: index of the first maximal element. -/
noncomputable def npArgmax (x : List ℝ) : Nat :=
  (x.enum.foldl (fun best p => if p.2 > best.2 then p else best)
    (0, x.headD 0)).1

/-! ## The decode loop of the smoke test (lines 193-211) -/

/-- The literal skip list of line 201: `["[CLS]", "[SEP]", "[PAD]"]`. -/
def skip_tokens : List String := ["[CLS]", "[SEP]", "[PAD]"]

/-- Modelled from the spec: the tokenizer's special reserved tokens —
classification-start, separator, padding, unknown, and mask (spec §3);
for this BERT-style tokenizer these are the bracketed strings whose ids
are serialized to `special_tokens.json`. -/
def special_reserved_tokens : List String :=
  ["[CLS]", "[SEP]", "[PAD]", "[UNK]", "[MASK]"]

structure TokenReport where
  token : String
  label : String
  confidence : ℝ

/-- One iteration of the decode loop for a non-skipped token paired with
its row of logits: `label = id2label.get(argmax, "UNKNOWN")`,
`confidence = np.max(softmax(row))`. -/
noncomputable def decodeReport (id2label : List (Nat × String))
    (p : String × List ℝ) : TokenReport :=
  { token := p.1
    label := (lookupLabel id2label (npArgmax p.2)).getD "UNKNOWN"
    confidence := npMax (softmax p.2) }

/-- The printed (token, label, confidence) triples: one per token of the
zip of tokens with logits rows, except tokens in the skip list. -/
noncomputable def smokeReports (id2label : List (Nat × String))
    (tokens : List String) (logits : List (List ℝ)) : List TokenReport :=
  ((tokens.zip logits).filter (fun p => decide (p.1 ∉ skip_tokens))).map
    (decodeReport id2label)

/-- `entities_found` (lines 199-211): the reports collected by
`if label != "O" and confidence > 0.5`. -/
noncomputable def entitiesFound (id2label : List (Nat × String))
    (tokens : List String) (logits : List (List ℝ)) : List TokenReport :=
  (smokeReports id2label tokens logits).filter
    (fun r => decide (r.label ≠ "O" ∧ (0.5 : ℝ) < r.confidence))

/-- The decode path of the smoke test as one function from the logits to
everything it outputs: the printed reports and the collected entities. -/
noncomputable def smokeDecode (id2label : List (Nat × String))
    (tokens : List String) (logits : List (List ℝ)) :
    List TokenReport × List TokenReport :=
  (smokeReports id2label tokens logits, entitiesFound id2label tokens logits)

/-! ## Helper lemmas for the numerical claims -/

theorem sum_map_div (l : List ℝ) (c : ℝ) :
    (l.map (fun e => e / c)).sum = l.sum / c := by
  induction l with
  | nil => simp
  | cons a t ih => simp [ih, add_div]

theorem foldl_max_bounds (lo hi : ℝ) (l : List ℝ) :
    ∀ a, lo ≤ a → a ≤ hi → (∀ v ∈ l, lo ≤ v ∧ v ≤ hi) →
      lo ≤ l.foldl max a ∧ l.foldl max a ≤ hi := by
  induction l with
  | nil => intro a h1 h2 _; exact ⟨h1, h2⟩
  | cons b t ih =>
    intro a h1 h2 h3
    have hb := h3 b (List.mem_cons_self b t)
    refine ih (max a b) (le_trans h1 (le_max_left a b)) (max_le h2 hb.2) ?_
    intro v hv
    exact h3 v (List.mem_cons_of_mem b hv)

theorem mem_entitiesFound_iff (id2label : List (Nat × String))
    (tokens : List String) (logits : List (List ℝ)) (r : TokenReport) :
    r ∈ entitiesFound id2label tokens logits ↔
      ∃ p ∈ tokens.zip logits, p.1 ∉ skip_tokens ∧
        r = decodeReport id2label p ∧
        r.label ≠ "O" ∧ (0.5 : ℝ) < r.confidence := by
  simp only [entitiesFound, smokeReports, List.mem_filter, List.mem_map,
    decide_eq_true_eq]
  constructor
  · rintro ⟨⟨p, hp, rfl⟩, hO, hc⟩
    exact ⟨p, hp.1, hp.2, rfl, hO, hc⟩
  · rintro ⟨p, hpz, hskip, rfl, hO, hc⟩
    exact ⟨⟨p, ⟨hpz, hskip⟩, rfl⟩, hO, hc⟩

theorem softmax_zero_singleton : softmax [(0 : ℝ)] = [1] := by
  simp [softmax, npMax, Real.exp_zero]

end BiomedicalNER

/-- C5: a (token, label, confidence) triple is collected into
`entities_found` if and only if it comes from a token of the zipped
token/logits sequence that is not skipped as special, its decoded label is
not "O", and its confidence is strictly greater than 0.5. -/
theorem C5_entity_collection_iff (id2label : List (Nat × String))
    (tokens : List String) (logits : List (List ℝ)) (r : TokenReport) :
    r ∈ entitiesFound id2label tokens logits ↔
      ∃ p ∈ tokens.zip logits, p.1 ∉ skip_tokens ∧
        r = decodeReport id2label p ∧
        r.label ≠ "O" ∧ (0.5 : ℝ) < r.confidence :=
  mem_entitiesFound_iff id2label tokens logits r

/-- C6 (claim as stated, counterexample): the mask token is one of the
tokenizer's special reserved tokens, yet the smoke test does not skip it:
on a sequence consisting of the single token "[MASK]" the report list is
nonempty, so not every special token is skipped. -/
theorem C6_mask_reported_counterexample :
    "[MASK]" ∈ special_reserved_tokens ∧
    smokeReports [(0, "O")] ["[MASK]"] [[0]] ≠ [] := by
  constructor
  · decide
  · have h : smokeReports [(0, "O")] ["[MASK]"] [[0]]
        = [decodeReport [(0, "O")] ("[MASK]", [0])] := rfl
    rw [h]
    exact List.cons_ne_nil _ _

/-- C6 (amended): the smoke test reports a (token, label, confidence)
triple for exactly the tokens outside the literal skip list
["[CLS]", "[SEP]", "[PAD]"]; the unknown and mask special tokens are not
in that list, so they are reported like ordinary tokens rather than
skipped. -/
theorem C6_skips_exactly_cls_sep_pad (id2label : List (Nat × String))
    (tokens : List String) (logits : List (List ℝ)) :
    (∀ r ∈ smokeReports id2label tokens logits,
        ∃ p ∈ tokens.zip logits, p.1 ∉ skip_tokens ∧
          r = decodeReport id2label p) ∧
    (∀ p ∈ tokens.zip logits, p.1 ∉ skip_tokens →
        decodeReport id2label p ∈ smokeReports id2label tokens logits) ∧
    "[UNK]" ∉ skip_tokens ∧ "[MASK]" ∉ skip_tokens := by
  refine ⟨?_, ?_, by decide, by decide⟩
  · intro r hr
    simp only [smokeReports, List.mem_map, List.mem_filter,
      decide_eq_true_eq] at hr
    obtain ⟨p, ⟨hpz, hskip⟩, rfl⟩ := hr
    exact ⟨p, hpz, hskip, rfl⟩
  · intro p hpz hskip
    simp only [smokeReports, List.mem_map, List.mem_filter,
      decide_eq_true_eq]
    exact ⟨p, ⟨hpz, hskip⟩, rfl⟩

/-- C6 witness: the amended theorem applied to a concrete non-special
token, which is therefore reported. -/
theorem C6_skips_exactly_cls_sep_pad_witness :
    decodeReport [] ("Lisinopril", [(0 : ℝ)]) ∈
      smokeReports [] ["Lisinopril"] [[(0 : ℝ)]] :=
  (C6_skips_exactly_cls_sep_pad [] ["Lisinopril"] [[0]]).2.1
    ("Lisinopril", [0]) (by simp) (by decide)

/-- C7: for every nonempty score vector, the softmax values each lie in
[0, 1] and sum to 1 across the class dimension, so the reported confidence
(their maximum) lies in [0, 1]. -/
theorem C7_softmax_normalization (x : List ℝ) (hx : x ≠ []) :
    (∀ v ∈ softmax x, 0 ≤ v ∧ v ≤ 1) ∧
    (softmax x).sum = 1 ∧
    0 ≤ npMax (softmax x) ∧ npMax (softmax x) ≤ 1 := by
  have hsx : softmax x = (x.map (fun xi => Real.exp (xi - npMax x))).map
      (fun e => e / (x.map (fun xi => Real.exp (xi - npMax x))).sum) := rfl
  have hexp_pos : ∀ e ∈ x.map (fun xi => Real.exp (xi - npMax x)), 0 < e := by
    intro e he
    obtain ⟨xi, hxi, rfl⟩ := List.mem_map.mp he
    exact Real.exp_pos _
  have hmapne : x.map (fun xi => Real.exp (xi - npMax x)) ≠ [] := by
    simpa using hx
  have hS : 0 < (x.map (fun xi => Real.exp (xi - npMax x))).sum :=
    List.sum_pos _ hexp_pos hmapne
  have hmem : ∀ v ∈ softmax x, 0 ≤ v ∧ v ≤ 1 := by
    intro v hv
    rw [hsx] at hv
    obtain ⟨e, he, rfl⟩ := List.mem_map.mp hv
    refine ⟨div_nonneg (hexp_pos e he).le hS.le, ?_⟩
    rw [div_le_one hS]
    exact List.single_le_sum (fun y hy => (hexp_pos y hy).le) e he
  have hsum : (softmax x).sum = 1 := by
    rw [hsx, sum_map_div]
    exact div_self (ne_of_gt hS)
  refine ⟨hmem, hsum, ?_⟩
  have hne2 : softmax x ≠ [] := by
    rw [hsx]
    simpa using hx
  obtain ⟨h, t, heq⟩ := List.exists_cons_of_ne_nil hne2
  have hallv : ∀ v ∈ h :: t, 0 ≤ v ∧ v ≤ 1 := by
    rw [← heq]
    exact hmem
  have hh := hallv h (List.mem_cons_self h t)
  have hb := foldl_max_bounds 0 1 (h :: t) h hh.1 hh.2 hallv
  unfold npMax
  rw [heq]
  simpa using hb

/-- C7 witness: the theorem applied to the concrete score vector [0]. -/
theorem C7_softmax_normalization_witness :
    (∀ v ∈ softmax [(0 : ℝ)], 0 ≤ v ∧ v ≤ 1) ∧
    (softmax [(0 : ℝ)]).sum = 1 ∧
    0 ≤ npMax (softmax [(0 : ℝ)]) ∧ npMax (softmax [(0 : ℝ)]) ≤ 1 :=
  C7_softmax_normalization [0] (List.cons_ne_nil 0 [])

/-- C8: the decode path from logits to reported labels/confidences and
collected entities is a pure function of its inputs: two runs on the same
tokens and the same logits produce identical outputs. -/
theorem C8_decode_deterministic (id2label : List (Nat × String))
    (tokens : List String) (logits1 logits2 : List (List ℝ))
    (h : logits1 = logits2) :
    smokeDecode id2label tokens logits1 = smokeDecode id2label tokens logits2 := by
  rw [h]

/-- C8 witness: two runs on identical concrete logits coincide. -/
theorem C8_decode_deterministic_witness :
    smokeDecode [] ["Lisinopril"] [[(0 : ℝ)]]
      = smokeDecode [] ["Lisinopril"] [[(0 : ℝ)]] :=
  C8_decode_deterministic [] ["Lisinopril"] [[0]] [[0]] rfl

/-- C9: for a non-skipped token whose arg-max class id is absent from the
loaded id2label mapping, the decoded label is the string "UNKNOWN" (not an
error); "UNKNOWN" differs from "O", so when its confidence exceeds 0.5 the
token is collected as an entity. -/
theorem C9_unknown_label_collected (id2label : List (Nat × String))
    (tokens : List String) (logits : List (List ℝ)) (p : String × List ℝ)
    (hmem : p ∈ tokens.zip logits) (hskip : p.1 ∉ skip_tokens)
    (habsent : lookupLabel id2label (npArgmax p.2) = none)
    (hconf : (0.5 : ℝ) < (decodeReport id2label p).confidence) :
    (decodeReport id2label p).label = "UNKNOWN" ∧
    (decodeReport id2label p).label ≠ "O" ∧
    decodeReport id2label p ∈ entitiesFound id2label tokens logits := by
  have hlab : (decodeReport id2label p).label = "UNKNOWN" := by
    simp [decodeReport, habsent]
  have hno : (decodeReport id2label p).label ≠ "O" := by
    rw [hlab]
    decide
  refine ⟨hlab, hno, ?_⟩
  exact (mem_entitiesFound_iff id2label tokens logits _).mpr
    ⟨p, hmem, hskip, rfl, hno, hconf⟩

/-- C9 witness: with an empty id2label table, the single token
"Lisinopril" with score vector [0] gets label "UNKNOWN" with confidence 1
and is collected. -/
theorem C9_unknown_label_collected_witness :
    (decodeReport [] ("Lisinopril", [(0 : ℝ)])).label = "UNKNOWN" ∧
    (decodeReport [] ("Lisinopril", [(0 : ℝ)])).label ≠ "O" ∧
    decodeReport [] ("Lisinopril", [(0 : ℝ)]) ∈
      entitiesFound [] ["Lisinopril"] [[(0 : ℝ)]] :=
  C9_unknown_label_collected [] ["Lisinopril"] [[0]] ("Lisinopril", [0])
    (by simp) (by decide) rfl
    (by
      show (0.5 : ℝ) < npMax (softmax [0])
      rw [softmax_zero_singleton]
      norm_num [npMax])

/-- C10: the implemented softmax, which subtracts the maximum element
before exponentiating, is extensionally equal to the textbook softmax
exp(x_i) / Σ_j exp(x_j) on every real score vector. -/
theorem C10_softmax_eq_textbook (x : List ℝ) :
    softmax x = softmax_textbook x := by
  rcases eq_or_ne x [] with rfl | hx
  · rfl
  · have hsx : softmax x = (x.map (fun xi => Real.exp (xi - npMax x))).map
        (fun e => e / (x.map (fun xj => Real.exp (xj - npMax x))).sum) := rfl
    have hS : 0 < (x.map Real.exp).sum := by
      refine List.sum_pos _ ?_ (by simpa using hx)
      intro e he
      obtain ⟨xi, _, rfl⟩ := List.mem_map.mp he
      exact Real.exp_pos _
    have hsum : (x.map (fun xj => Real.exp (xj - npMax x))).sum
        = (x.map Real.exp).sum / Real.exp (npMax x) := by
      have h1 : x.map (fun xj => Real.exp (xj - npMax x))
          = (x.map Real.exp).map (fun e => e / Real.exp (npMax x)) := by
        rw [List.map_map]
        exact List.map_congr_left (fun a _ => Real.exp_sub a (npMax x))
      rw [h1, sum_map_div]
    rw [hsx, List.map_map]
    unfold softmax_textbook
    refine List.map_congr_left ?_
    intro xi _
    have hE : Real.exp (npMax x) ≠ 0 := (Real.exp_pos _).ne'
    have hSne : (x.map Real.exp).sum ≠ 0 := ne_of_gt hS
    simp only [Function.comp_apply]
    rw [Real.exp_sub, hsum]
    field_simp
